import Mathlib

/-!
Verification of the USB-Screen repository (Rust) against its
natural-language specification, via a shallow embedding in Lean 4.

Each Rust function relevant to the claims is translated into an
executable Lean definition; machine integers (u8/u16/u32) are modelled
as `Nat` with masks and explicit modular arithmetic where overflow
matters, Rust `f32` values that only ever hold small decimal telemetry
values are modelled by exact rationals, `Result`/panics become
`Except`/`Option`, and external effects (USB bulk writes, the LZ4
compressor from the `lz4_flex` crate) are passed in as explicit
parameters so the pure control flow of the source stays visible.
-/

set_option maxRecDepth 100000

namespace USBScreen

/-! ## `src/rgb565.rs` — RGB565 pixel packing

`Rgb565Pixel::from_rgb` packs an RGB888 triple into a 16-bit 5-6-5
value; `red`/`green`/`blue` unpack the channels, shifted so the result
is between 0 and 255.  Byte-level encoders emit two bytes per pixel
(`to_be_bytes` resp. `to_le_bytes`); `rgb565_image_to_rgb` decodes a
byte stream back into RGB888 triples reading each pair of bytes with
`u16::from_le_bytes`. -/

/-- One RGB888 pixel (each channel a byte, `< 256`). -/
structure Rgb888 where
  r : Nat
  g : Nat
  b : Nat
  deriving Repr, DecidableEq

/-- `Rgb565Pixel::from_rgb`:
`((r as u16 & 0b11111000) << 8) | ((g as u16 & 0b11111100) << 3) | (b as u16 >> 3)`. -/
def Rgb565Pixel.from_rgb (r g b : Nat) : Nat :=
  (((r &&& 0b11111000) <<< 8) ||| ((g &&& 0b11111100) <<< 3)) ||| (b >>> 3)

/-- `Rgb565Pixel::red`: `((self.0 & R_MASK) >> 8) as u8` with
`R_MASK = 0b1111_1000_0000_0000`. -/
def Rgb565Pixel.red (v : Nat) : Nat := (v &&& 0b1111100000000000) >>> 8

/-- `Rgb565Pixel::green`: `((self.0 & G_MASK) >> 3) as u8` with
`G_MASK = 0b0000_0111_1110_0000`. -/
def Rgb565Pixel.green (v : Nat) : Nat := (v &&& 0b0000011111100000) >>> 3

/-- `Rgb565Pixel::blue`: `((self.0 & B_MASK) << 3) as u8` with
`B_MASK = 0b0000_0000_0001_1111`. -/
def Rgb565Pixel.blue (v : Nat) : Nat := (v &&& 0b0000000000011111) <<< 3

/-- Decode one packed RGB565 value into the RGB888 triple produced by
the `red`/`green`/`blue` accessors (the loop body shared by
`rgb565_u16_image_to_rgb` and `rgb565_image_to_rgb`). -/
def decodeRgb565 (v : Nat) : Rgb888 :=
  ⟨Rgb565Pixel.red v, Rgb565Pixel.green v, Rgb565Pixel.blue v⟩

/-- `u16::to_be_bytes` of a value `< 2^16`: most significant byte first. -/
def u16_to_be_bytes (v : Nat) : List Nat := [v / 256 % 256, v % 256]

/-- `u16::to_le_bytes` of a value `< 2^16`: least significant byte first. -/
def u16_to_le_bytes (v : Nat) : List Nat := [v % 256, v / 256 % 256]

/-- `u16::from_le_bytes([b0, b1])`. -/
def u16_from_le_bytes (b0 b1 : Nat) : Nat := b0 % 256 + b1 % 256 * 256

/-- `rgb888_to_rgb565_be`: for each pixel push the two
`to_be_bytes` of `Rgb565Pixel::from_rgb`. -/
def rgb888_to_rgb565_be (img : List Rgb888) : List Nat :=
  img.flatMap fun p => u16_to_be_bytes (Rgb565Pixel.from_rgb p.r p.g p.b)

/-- `rgb888_to_rgb565_le`: identical loop but pushing `to_le_bytes`. -/
def rgb888_to_rgb565_le (img : List Rgb888) : List Nat :=
  img.flatMap fun p => u16_to_le_bytes (Rgb565Pixel.from_rgb p.r p.g p.b)

/-- `rgb565_image_to_rgb`: reads the byte stream two bytes at a time,
reassembles each pixel with `u16::from_le_bytes` and unpacks the
channels.  (The Rust loop is driven by the `width*height` pixels of the
output image; here the stream length does that job, which agrees with
the source whenever the byte stream holds exactly the image's pixels.) -/
def rgb565_image_to_rgb : List Nat → List Rgb888
  | b0 :: b1 :: rest => decodeRgb565 (u16_from_le_bytes b0 b1) :: rgb565_image_to_rgb rest
  | _ => []

/-! ## `src/widgets.rs` — widget model

`TextWidget` and `ImageWidget` carry geometry and per-type parameters;
`Box<dyn Widget>` lists become a closed sum `Widget`.  `f32` fields
(`font_size`, `rotation`) only ever hold small decimal values and are
modelled by exact rationals. -/

/-- `widgets.rs` `Rect` (i32 coordinates). -/
structure Rect where
  left : Int
  top : Int
  right : Int
  bottom : Int
  deriving Repr, DecidableEq

/-- `TextWidget` (serde-visible fields; the `custom_script_data` cell is
runtime-only state filled by a worker thread and is not part of the
model).  The Rust `id` comes from `Uuid::new_v4`, an external source of
randomness, so constructors below take it as a parameter. -/
structure TextWidget where
  id : String
  text : String
  -- Rust field `prefix` (a Lean keyword, hence renamed here)
  prefixText : String
  color : List Nat
  font_size : ℚ
  position : Rect
  type_name : String
  num_widget_index : Nat
  num_widget : Nat
  tag1 : String
  tag2 : String
  width : Option Int
  height : Option Int
  alignment : Option String
  custom_script : Option String
  deriving Repr, DecidableEq

/-- `TextWidget::new_with_text` (uuid passed in, see `TextWidget`). -/
def TextWidget.new_with_text (id : String) (x y : Int)
    (type_name type_label text : String) : TextWidget where
  id := id
  text := text
  prefixText := if type_label.length > 0 then type_label ++ ":" else ""
  color := [255, 255, 255, 255]
  font_size := 14
  position := ⟨x, y, x + 1, y + 1⟩
  type_name := type_name
  num_widget_index := 0
  num_widget := 1
  tag1 := ""
  tag2 := ""
  width := none
  height := none
  alignment := none
  custom_script := none

/-- `ImageData`: RGBA frames as raw byte vectors. -/
structure ImageData where
  width : Nat
  height : Nat
  frames : List (List Nat)
  deriving Repr, DecidableEq

/-- `ImageWidget` (current schema, with `tag1`/`tag2`). -/
structure ImageWidget where
  id : String
  image_data : ImageData
  rotation : ℚ
  position : Rect
  type_name : String
  frame_index : Nat
  color : Option (List Nat)
  num_widget_index : Nat
  num_widget : Nat
  tag1 : Option String
  tag2 : Option String
  deriving Repr, DecidableEq

/-- `widgets::v10::ImageWidget`: the legacy widget shape, which lacks
`tag1`/`tag2`. -/
structure ImageWidgetV10 where
  id : String
  image_data : ImageData
  rotation : ℚ
  position : Rect
  type_name : String
  frame_index : Nat
  color : Option (List Nat)
  num_widget_index : Nat
  num_widget : Nat
  deriving Repr, DecidableEq

/-- The closed sum standing for `Box<dyn Widget>` (the two `impl Widget`
types of the current schema). -/
inductive Widget where
  | text (w : TextWidget)
  | image (w : ImageWidget)
  deriving Repr, DecidableEq

/-- Trait method `type_name`. -/
def Widget.type_name : Widget → String
  | .text w => w.type_name
  | .image w => w.type_name

/-- Trait method `index` (field `num_widget_index`). -/
def Widget.index : Widget → Nat
  | .text w => w.num_widget_index
  | .image w => w.num_widget_index

/-- Trait method `set_index`. -/
def Widget.set_index : Widget → Nat → Widget
  | .text w, i => .text { w with num_widget_index := i }
  | .image w, i => .image { w with num_widget_index := i }

/-- Trait method `num_widget`. -/
def Widget.num_widget : Widget → Nat
  | .text w => w.num_widget
  | .image w => w.num_widget

/-- Trait method `set_num_widget`. -/
def Widget.set_num_widget : Widget → Nat → Widget
  | .text w, n => .text { w with num_widget := n }
  | .image w, n => .image { w with num_widget := n }

/-! ## `src/screen.rs` — `ScreenRender::render`'s index pass

`render` first walks the widget list with a `HashMap<String, usize>`:
a first-seen type name is inserted with value 0, a repeat increments
the entry; each widget's `num_widget_index` is set to the entry's
current value.  A second walk sets every widget's `num_widget` to the
entry's final value.  The `HashMap` is modelled as a function
`String → Option Nat`. -/

/-- `mapAccumL`: thread an accumulator (the `HashMap`) through a list
walk, also rebuilding the (mutated) list. -/
def mapAccumL (f : α → β → α × β) : α → List β → α × List β
  | a, [] => (a, [])
  | a, x :: xs =>
    let p := f a x
    let q := mapAccumL f p.1 xs
    (q.1, p.2 :: q.2)

/-- The two index-assignment loops at the top of `ScreenRender::render`
(screen.rs:164-177). -/
def render_update_indexes (ws : List Widget) : List Widget :=
  let step : (String → Option Nat) → Widget → (String → Option Nat) × Widget := fun m w =>
    let tn := w.type_name
    let m' : String → Option Nat :=
      if (m tn).isSome then fun k => if k = tn then some ((m tn).getD 0 + 1) else m k
      else fun k => if k = tn then some 0 else m k
    (m', w.set_index ((m' tn).getD 0))
  let p := mapAccumL step (fun _ => none) ws
  p.2.map fun w => w.set_num_widget ((p.1 w.type_name).getD 0)

/-- Which telemetry entry a `cpu_usage` text widget resolves
(widgets.rs:281-287): global usage iff `num_widget == 1`, else the
per-core entry at `num_widget_index`. -/
inductive CpuUsageQuery where
  | global
  | percpu (core : Nat)
  deriving Repr, DecidableEq

/-- The dispatch in `TextWidget::draw` for `type_name == "cpu_usage"`. -/
def cpu_usage_query (num_widget num_widget_index : Nat) : CpuUsageQuery :=
  if num_widget = 1 then .global else .percpu num_widget_index

/-! ## `src/widgets.rs` — cached-text update and progress bars -/

/-- `monitor.rs:23`: `pub const EMPTY_STRING: &str = "N/A";` — the
"telemetry unavailable" sentinel. -/
def EMPTY_STRING : String := "N/A"

/-- The accessor-hit update in `TextWidget::draw` (widgets.rs:376-380):
`if let Some(text) = ... { if self.text != text && text != EMPTY_STRING
{ self.text = text; } }`. -/
def update_cached_text (current : String) (resolved : Option String) : String :=
  match resolved with
  | none => current
  | some text => if current ≠ text ∧ text ≠ EMPTY_STRING then text else current

/-- Digit-string value (base 10). -/
def digitsToNat (ds : List Char) : Nat := ds.foldl (fun a c => a * 10 + (c.toNat - 48)) 0

/-- Rust `str::parse::<f32>()` restricted to the plain decimal literals
telemetry texts contain: optional sign, then digits with an optional
fractional part, consuming the whole string (exponents and the
`inf`/`NaN` spellings never occur here and are modelled as absent).
The f32 value is modelled by the exact rational it denotes. -/
def parse_f32 (s : List Char) : Option ℚ :=
  let signed : ℚ × List Char :=
    match s with
    | '-' :: rest => (-1, rest)
    | '+' :: rest => (1, rest)
    | _ => (1, s)
  let t := signed.2
  let intPart := t.takeWhile Char.isDigit
  let t2 := t.dropWhile Char.isDigit
  match t2 with
  | [] => if intPart.isEmpty then none else some (signed.1 * digitsToNat intPart)
  | '.' :: fracRest =>
    let fracPart := fracRest.takeWhile Char.isDigit
    let t3 := fracRest.dropWhile Char.isDigit
    if t3.isEmpty ∧ (¬intPart.isEmpty ∨ ¬fracPart.isEmpty) then
      some (signed.1 * ((digitsToNat intPart : ℚ)
        + (digitsToNat fracPart : ℚ) / ((10 : ℚ) ^ fracPart.length)))
    else none
  | _ => none

/-- `text.replace("%", "")`: every `%` removed (Rust `str::replace`
with a one-character pattern, scanning left to right). -/
def remove_percent : List Char → List Char
  | [] => []
  | c :: rest => if c = '%' then remove_percent rest else c :: remove_percent rest

/-- `text.replace("°C", "")`: every (non-overlapping, leftmost-first)
occurrence of the two-character pattern `°C` removed. -/
def remove_degC : List Char → List Char
  | '°' :: 'C' :: rest => remove_degC rest
  | c :: rest => c :: remove_degC rest
  | [] => []

/-- The percent value of a progress-bar text
(widgets.rs:398-403): `text.replace("%","").replace("°C","")
.parse::<f32>().unwrap_or(0.)`. -/
def progress_percent (text : String) : ℚ :=
  (parse_f32 (remove_degC (remove_percent text.toList))).getD 0

/-- Rust `as i32` on an f32 (here: on an exact rational): truncation
toward zero. -/
def ratTruncToInt (q : ℚ) : Int := Int.tdiv q.num (q.den : Int)

/-- The bar's configured horizontal extent:
`self.width.unwrap_or(self.font_size as i32 * 5)`. -/
def TextWidget.bar_width (w : TextWidget) : Int := w.width.getD (ratTruncToInt w.font_size * 5)

/-- The bar's configured vertical extent:
`self.height.unwrap_or(self.font_size as i32)`. -/
def TextWidget.bar_height (w : TextWidget) : Int := w.height.getD (ratTruncToInt w.font_size)

/-- A `fill_rect` call: position and size of the filled rectangle. -/
structure FillRect where
  left : Int
  top : Int
  width : Int
  height : Int
  deriving Repr, DecidableEq

/-- The branch structure of `TextWidget::draw` after text resolution
(widgets.rs:385-440), restricted to what it fills: `some r` when the
widget renders as a progress bar filling `r`, `none` when it renders as
a weather icon or as text.  (The draw also clamps the stored
`font_size` after computing these values; that mutation does not feed
the emitted rectangle and is omitted.) -/
def progress_bar_rect (w : TextWidget) : Option FillRect :=
  if w.type_name = "weather" ∧ w.tag1 = "6" then none
  else if w.type_name ≠ "weather" ∧ w.type_name ≠ "uptime" ∧ (w.tag1 = "1" ∨ w.tag1 = "2") then
    let percent := progress_percent w.text
    let width := w.bar_width
    let height := w.bar_height
    if w.tag1 = "1" then
      let rw0 := ratTruncToInt ((width : ℚ) * (percent / 100))
      let rect_width := if rw0 ≤ 0 then 1 else rw0
      some ⟨w.position.left, w.position.top, rect_width, height⟩
    else
      let rh0 := ratTruncToInt ((height : ℚ) * (percent / 100))
      let rect_height := if rh0 ≤ 0 then 1 else rh0
      some ⟨w.position.left, w.position.top + (height - rect_height), width, rect_height⟩
  else none

/-- Modelled from the claim's words (for comparison only, not from the
source): the percentage read from the *numeric prefix* of the stripped
text — the longest leading decimal literal, 0 when there is none. -/
def numeric_prefix_percent (text : String) : ℚ :=
  let stripped := remove_degC (remove_percent text.toList)
  let signed : ℚ × List Char :=
    match stripped with
    | '-' :: rest => (-1, rest)
    | '+' :: rest => (1, rest)
    | _ => (1, stripped)
  let intPart := signed.2.takeWhile Char.isDigit
  let afterInt := signed.2.dropWhile Char.isDigit
  match afterInt with
  | '.' :: fracRest =>
    let fracPart := fracRest.takeWhile Char.isDigit
    signed.1 * ((digitsToNat intPart : ℚ)
      + (digitsToNat fracPart : ℚ) / ((10 : ℚ) ^ fracPart.length))
  | _ => if intPart.isEmpty then 0 else signed.1 * digitsToNat intPart

/-! ## `src/usb_screen.rs` — framing protocol and session guard

`draw_rgb565` builds a 16-byte header (8-byte frame-begin magic,
big-endian width/height/x/y), then performs three bulk writes: header,
LZ4-compressed payload, 8-byte frame-end magic.  The LZ4 compressor
(`lz4_flex::compress_prepend_size`, an external crate) and the outcome
of each USB bulk write are passed in as parameters (`compress`, `env`);
`env i = none` means write `i` succeeds, `env i = some e` means it
fails (timeout or USB status failure) with error `e`.  The model
returns the Rust function's `Result` together with the list of writes
issued on the wire. -/

/-- `const IMAGE_AA: u64` — frame-begin magic. -/
def IMAGE_AA : Nat := 7596835243154170209

/-- `const IMAGE_BB: u64` — frame-end magic. -/
def IMAGE_BB : Nat := 7596835243154170466

/-- `u64::to_be_bytes`. -/
def u64_to_be_bytes (v : Nat) : List Nat :=
  [v / 2 ^ 56 % 256, v / 2 ^ 48 % 256, v / 2 ^ 40 % 256, v / 2 ^ 32 % 256,
   v / 2 ^ 24 % 256, v / 2 ^ 16 % 256, v / 2 ^ 8 % 256, v % 256]

/-- The 16-byte `img_begin` header of `draw_rgb565`. -/
def img_begin (x y width height : Nat) : List Nat :=
  u64_to_be_bytes IMAGE_AA ++ u16_to_be_bytes width ++ u16_to_be_bytes height
    ++ u16_to_be_bytes x ++ u16_to_be_bytes y

/-- `draw_rgb565` (usb_screen.rs:230-254): compress, then three bulk
writes, each `?`-propagating its status; the function performs **no
size check** on the compressed payload. -/
def draw_rgb565 (env : Nat → Option String) (compress : List Nat → List Nat)
    (rgb565 : List Nat) (x y width height : Nat) :
    Except String Unit × List (List Nat) :=
  let rgb565_u8_slice := compress rgb565
  let header := img_begin x y width height
  match env 0 with
  | some e => (.error e, [header])
  | none =>
    match env 1 with
    | some e => (.error e, [header, rgb565_u8_slice])
    | none =>
      match env 2 with
      | some e => (.error e, [header, rgb565_u8_slice, u64_to_be_bytes IMAGE_BB])
      | none => (.ok (), [header, rgb565_u8_slice, u64_to_be_bytes IMAGE_BB])

/-- `draw_rgb565_serial` (usb_screen.rs:264-287): the identical
three-part frame over the serial port (`write` + `flush` per part, each
`?`-propagating); it too performs no size check. -/
def draw_rgb565_serial (env : Nat → Option String) (compress : List Nat → List Nat)
    (rgb565 : List Nat) (x y width height : Nat) :
    Except String Unit × List (List Nat) :=
  let rgb565_u8_slice := compress rgb565
  let header := img_begin x y width height
  match env 0 with
  | some e => (.error e, [header])
  | none =>
    match env 1 with
    | some e => (.error e, [header, rgb565_u8_slice])
    | none =>
      match env 2 with
      | some e => (.error e, [header, rgb565_u8_slice, u64_to_be_bytes IMAGE_BB])
      | none => (.ok (), [header, rgb565_u8_slice, u64_to_be_bytes IMAGE_BB])

/-- An `image::RgbImage`: dimensions plus RGB888 pixel data. -/
structure RgbImageM where
  width : Nat
  height : Nat
  pixels : List Rgb888
  deriving Repr, DecidableEq

/-- Free function `draw_rgb_image` (usb_screen.rs:224-228): convert to
big-endian RGB565 and frame it. -/
def draw_rgb_image (env : Nat → Option String) (compress : List Nat → List Nat)
    (x y : Nat) (img : RgbImageM) : Except String Unit × List (List Nat) :=
  draw_rgb565 env compress (rgb888_to_rgb565_be img.pixels) x y img.width img.height

/-- `draw_rgb_image_serial` (usb_screen.rs:257-261). -/
def draw_rgb_image_serial (env : Nat → Option String) (compress : List Nat → List Nat)
    (x y : Nat) (img : RgbImageM) : Except String Unit × List (List Nat) :=
  draw_rgb565_serial env compress (rgb888_to_rgb565_be img.pixels) x y img.width img.height

/-- `UsbScreenInfo`. -/
structure UsbScreenInfo where
  label : String
  address : String
  width : Nat
  height : Nat
  deriving Repr, DecidableEq

/-- The `UsbScreen` session handle (interface/port handles live in the
environment parameters, so only the info part is state). -/
inductive UsbScreen where
  | usbRaw (info : UsbScreenInfo)
  | usbSerial (info : UsbScreenInfo)
  deriving Repr, DecidableEq

/-- The bound device's declared geometry. -/
def UsbScreen.info : UsbScreen → UsbScreenInfo
  | .usbRaw i => i
  | .usbSerial i => i

/-- `UsbScreen::draw_rgb_image` (usb_screen.rs:31-48): if the image fits
the declared resolution, the frame is drawn and the inner `Result` is
discarded (`let _ = draw_rgb_image(...)`); otherwise nothing is drawn.
Either way the method ends in `Ok(())`. -/
def UsbScreen.draw_rgb_image (s : UsbScreen) (env : Nat → Option String)
    (compress : List Nat → List Nat) (x y : Nat) (img : RgbImageM) :
    Except String Unit × List (List Nat) :=
  match s with
  | .usbRaw info =>
    if img.width ≤ info.width ∧ img.height ≤ info.height then
      let inner := USBScreen.draw_rgb_image env compress x y img
      (.ok (), inner.2)
    else (.ok (), [])
  | .usbSerial info =>
    if img.width ≤ info.width ∧ img.height ≤ info.height then
      let inner := USBScreen.draw_rgb_image_serial env compress x y img
      (.ok (), inner.2)
    else (.ok (), [])

/-! ## `src/usb_screen.rs` — discovery: decoding the declared resolution

Both `find_all_device` (usb_screen.rs:100-115) and
`find_usb_serial_device` (usb_screen.rs:187-196) decode the screen size
from an identity string with the very same statements:
`&serial_number[6..serial_number.find(";").unwrap_or(13)]`, then
`.replace("X", "x")`, `.split("x")`, and two `u16` parses with defaults
160 and 128.  Strings are modelled as `List Char` (the identities in
play are ASCII, so Rust's byte indices and character indices agree). -/

/-- `str::find` for a single-character pattern: index of the first
occurrence. -/
def findChar (c : Char) : List Char → Option Nat
  | [] => none
  | x :: xs => if x = c then some 0 else (findChar c xs).map (· + 1)

/-- A Rust slice `&s[a..b]`: `none` models the out-of-range panic. -/
def rust_slice (s : List Char) (a b : Nat) : Option (List Char) :=
  if a ≤ b ∧ b ≤ s.length then some ((s.take b).drop a) else none

/-- The optional leading `+` accepted by Rust's unsigned parse. -/
def stripLeadingPlus (s : List Char) : List Char :=
  match s with
  | '+' :: rest => rest
  | _ => s

/-- Rust `str::parse::<u16>()`: optional `+`, then decimal digits,
rejecting overflow past 65535. -/
def parse_u16 (s : List Char) : Option Nat :=
  let t := stripLeadingPlus s
  if ¬t.isEmpty ∧ t.all Char.isDigit then
    if digitsToNat t ≤ 65535 then some (digitsToNat t) else none
  else none

/-- The remainder after the first occurrence of `c` (what a second
`split(c).next()` scans), `none` when `c` does not occur. -/
def afterFirstChar (c : Char) (s : List Char) : Option (List Char) :=
  (findChar c s).map fun i => s.drop (i + 1)

/-- The shared size-decoding block of `find_all_device` and
`find_usb_serial_device`; `none` models the slice panic. -/
def decode_screen_size (serial : List Char) : Option (Nat × Nat) :=
  let e := (findChar ';' serial).getD 13
  match rust_slice serial 6 e with
  | none => none
  | some screen_size =>
    let ss := screen_size.map fun ch => if ch = 'X' then 'x' else ch
    let first := ss.takeWhile (· ≠ 'x')
    let second := (afterFirstChar 'x' ss).map (List.takeWhile (· ≠ 'x'))
    let width := (parse_u16 first).getD 160
    let height := match second with
      | none => 128
      | some s2 => (parse_u16 s2).getD 128
    some (width, height)

/-! ## `src/screen.rs` — persistence

The current on-disk schema is LZ4-compressed JSON of `SaveableScreen`.
The source still declares the legacy bincode shape `SaveableScreenV10`
(screen.rs:42-49; no `fps`, no device binding, no rotation, and the
v10 widget union whose image widget lacks `tag1`/`tag2`), but
`load_from_file` (screen.rs:246-248) only forwards to the JSON decoder
`load_from_file_v2`; the bincode branch is commented out.  A persisted
byte buffer is modelled by which schema its bytes encode: a bincode
encoding of the legacy struct is not UTF-8 JSON, so `serde_json` fails
on it. -/

/-- The current `SaveableWidget` union. -/
inductive SaveableWidget where
  | textWidget (w : TextWidget)
  | imageWidget (w : ImageWidget)
  deriving Repr, DecidableEq

/-- `widgets::v10::SaveableWidget`: the legacy union (text widgets kept
their shape; image widgets lack `tag1`/`tag2`). -/
inductive SaveableWidgetV10 where
  | textWidget (w : TextWidget)
  | imageWidget (w : ImageWidgetV10)
  deriving Repr, DecidableEq

/-- `SaveableScreen` (current schema, screen.rs:24-39). -/
structure SaveableScreen where
  width : Nat
  height : Nat
  model : String
  fps : ℚ
  device_address : Option String
  widgets : List SaveableWidget
  font : Option (List Nat)
  font_name : String
  rotate_degree : Option Int
  device_ip : Option String
  deriving Repr, DecidableEq

/-- `SaveableScreenV10` (legacy schema, screen.rs:41-49). -/
structure SaveableScreenV10 where
  width : Nat
  height : Nat
  model : String
  widgets : List SaveableWidgetV10
  font : Option (List Nat)
  font_name : String
  deriving Repr, DecidableEq

/-- A persisted (decompressed) document buffer, abstracted by the schema
its bytes encode. -/
inductive PersistedDoc where
  | jsonV2 (s : SaveableScreen)
  | bincodeLegacy (s : SaveableScreenV10)
  deriving Repr, DecidableEq

/-- The persistent fields of `ScreenRender` (the canvas and parsed font
are render-time resources derived from these). -/
structure ScreenRender where
  width : Nat
  height : Nat
  model : String
  widgets : List Widget
  font_name : String
  font : Option (List Nat)
  fps : ℚ
  rotate_degree : Int
  device_address : Option String
  device_ip : Option String
  deriving Repr, DecidableEq

/-- `ScreenRender::new` (screen.rs:66-90): fresh state with the
documented defaults `fps = 10`, `rotate_degree = 0`, no device binding.
(Font-byte parsing, which can fail in Rust, is a render-time concern
outside this model.) -/
def ScreenRender.new (model : String) (width height : Nat)
    (font_file : Option (List Nat)) (font_name : String) : ScreenRender where
  rotate_degree := 0
  width := width
  height := height
  model := model
  font_name := font_name
  font := font_file
  widgets := []
  fps := 10
  device_address := none
  device_ip := none

/-- `ScreenRender::load_from_file_v2` (screen.rs:251-279):
`serde_json::from_str` of the current schema — the only decoder; a
bincode legacy buffer is not JSON and makes it error.  On success the
fields are copied over, `rotate_degree.unwrap_or(0)`, the font is
replaced only when the document embeds one (parsing of the embedded
font bytes by the external font library is modelled as succeeding),
and the widget list is rebuilt. -/
def ScreenRender.load_from_file_v2 (r : ScreenRender) (doc : PersistedDoc) :
    Except String ScreenRender :=
  match doc with
  | .jsonV2 s =>
    let r1 : ScreenRender :=
      { r with
        width := s.width
        height := s.height
        fps := s.fps
        rotate_degree := s.rotate_degree.getD 0
        device_address := s.device_address
        device_ip := s.device_ip }
    let r2 : ScreenRender :=
      match s.font with
      | some f => { r1 with font := some f, font_name := s.font_name }
      | none => r1
    .ok { r2 with
          widgets := s.widgets.map fun sw =>
            match sw with
            | .textWidget txt => .text txt
            | .imageWidget im => .image im }
  | .bincodeLegacy _ => .error "serde_json: expected value at line 1"

/-- `ScreenRender::load_from_file` (screen.rs:246-248): despite its
comment promising a bincode fallback for old files, it only calls
`load_from_file_v2`. -/
def ScreenRender.load_from_file (r : ScreenRender) (doc : PersistedDoc) :
    Except String ScreenRender :=
  r.load_from_file_v2 doc

/-- "Within one quantization step": the property asserted by the claim
for a source pixel `p` and its decoded counterpart `d` (5-bit red/blue
channels, 6-bit green channel). -/
def withinQuantStep (p d : Rgb888) : Prop :=
  d.r ≤ p.r ∧ p.r - d.r < 8 ∧ d.g ≤ p.g ∧ p.g - d.g < 4 ∧ d.b ≤ p.b ∧ p.b - d.b < 8

/-! Bridge lemmas for the bitwise operations: each component of the
packed value is a function of a single byte, so every fact is checked
exhaustively over that byte's 256 values; masks distribute over `|||`
by `Nat.and_distrib_right`. -/

theorem hi_and_rmask : ∀ r < 256,
    ((r &&& 0b11111000) <<< 8) &&& 0b1111100000000000 = (r &&& 0b11111000) <<< 8 := by decide

theorem mid_and_rmask : ∀ g < 256,
    ((g &&& 0b11111100) <<< 3) &&& 0b1111100000000000 = 0 := by decide

theorem lo_and_rmask : ∀ b < 256, (b >>> 3) &&& 0b1111100000000000 = 0 := by decide

theorem hi_and_gmask : ∀ r < 256,
    ((r &&& 0b11111000) <<< 8) &&& 0b0000011111100000 = 0 := by decide

theorem mid_and_gmask : ∀ g < 256,
    ((g &&& 0b11111100) <<< 3) &&& 0b0000011111100000 = (g &&& 0b11111100) <<< 3 := by decide

theorem lo_and_gmask : ∀ b < 256, (b >>> 3) &&& 0b0000011111100000 = 0 := by decide

theorem hi_and_bmask : ∀ r < 256,
    ((r &&& 0b11111000) <<< 8) &&& 0b0000000000011111 = 0 := by decide

theorem mid_and_bmask : ∀ g < 256,
    ((g &&& 0b11111100) <<< 3) &&& 0b0000000000011111 = 0 := by decide

theorem lo_and_bmask : ∀ b < 256, (b >>> 3) &&& 0b0000000000011111 = b >>> 3 := by decide

theorem hi_shr8 : ∀ r < 256, ((r &&& 0b11111000) <<< 8) >>> 8 = r &&& 0b11111000 := by decide

theorem mid_shr3 : ∀ g < 256, ((g &&& 0b11111100) <<< 3) >>> 3 = g &&& 0b11111100 := by decide

theorem lo_shl3 : ∀ b < 256, (b >>> 3) <<< 3 = b &&& 0b11111000 := by decide

/-- Channel-exact form of the pixel-level decode of an encode: each
channel comes back with its low quantization bits cleared. -/
theorem decode_from_rgb (r g b : Nat) (hr : r < 256) (hg : g < 256) (hb : b < 256) :
    decodeRgb565 (Rgb565Pixel.from_rgb r g b) =
      ⟨r &&& 0b11111000, g &&& 0b11111100, b &&& 0b11111000⟩ := by
  unfold decodeRgb565 Rgb565Pixel.from_rgb Rgb565Pixel.red Rgb565Pixel.green Rgb565Pixel.blue
  rw [Nat.and_distrib_right, Nat.and_distrib_right,
      Nat.and_distrib_right, Nat.and_distrib_right,
      Nat.and_distrib_right, Nat.and_distrib_right,
      hi_and_rmask r hr, mid_and_rmask g hg, lo_and_rmask b hb,
      hi_and_gmask r hr, mid_and_gmask g hg, lo_and_gmask b hb,
      hi_and_bmask r hr, mid_and_bmask g hg, lo_and_bmask b hb]
  simp only [Nat.or_zero, Nat.zero_or]
  rw [hi_shr8 r hr, mid_shr3 g hg, lo_shl3 b hb]

theorem and_f8_le_and_close : ∀ x < 256, x &&& 0b11111000 ≤ x ∧ x - (x &&& 0b11111000) < 8 := by
  decide

theorem and_fc_le_and_close : ∀ x < 256, x &&& 0b11111100 ≤ x ∧ x - (x &&& 0b11111100) < 4 := by
  decide

/-- The packed value is a valid u16. -/
theorem from_rgb_lt (r g b : Nat) (hr : r < 256) (hg : g < 256) (hb : b < 256) :
    Rgb565Pixel.from_rgb r g b < 65536 := by
  have h1 : ∀ x < 256, (x &&& 0b11111000) <<< 8 < 65536 := by decide
  have h2 : ∀ x < 256, (x &&& 0b11111100) <<< 3 < 65536 := by decide
  have h3 : ∀ x < 256, x >>> 3 < 65536 := by decide
  show _ ||| _ < 65536
  have := Nat.or_lt_two_pow (n := 16)
    (Nat.or_lt_two_pow (n := 16) (h1 r hr) (h2 g hg)) (h3 b hb)
  simpa using this

/-- `from_le_bytes` undoes `to_le_bytes` on a valid u16. -/
theorem from_le_to_le (v : Nat) (hv : v < 65536) :
    u16_from_le_bytes (v % 256) (v / 256 % 256) = v := by
  unfold u16_from_le_bytes
  omega

/-- The little-endian byte-level decoder is the pointwise pixel decoder
on streams produced by the little-endian byte-level encoder. -/
theorem image_to_rgb_of_le (img : List Rgb888)
    (h : ∀ p ∈ img, p.r < 256 ∧ p.g < 256 ∧ p.b < 256) :
    rgb565_image_to_rgb (rgb888_to_rgb565_le img)
      = img.map fun p => decodeRgb565 (Rgb565Pixel.from_rgb p.r p.g p.b) := by
  induction img with
  | nil => rfl
  | cons p rest ih =>
    have hp := h p (List.mem_cons_self p rest)
    have hrest : ∀ q ∈ rest, q.r < 256 ∧ q.g < 256 ∧ q.b < 256 :=
      fun q hq => h q (List.mem_cons_of_mem p hq)
    have hv := from_rgb_lt p.r p.g p.b hp.1 hp.2.1 hp.2.2
    simp only [rgb888_to_rgb565_le, List.flatMap_cons, u16_to_le_bytes, List.map_cons,
      List.cons_append, List.nil_append]
    show decodeRgb565 (u16_from_le_bytes _ _) :: rgb565_image_to_rgb _ = _
    rw [from_le_to_le _ hv]
    exact congrArg _ (by simpa [rgb888_to_rgb565_le] using ih hrest)

/-! ## Claim theorems -/

/-- C8 counterexample: for the byte-level pair `rgb888_to_rgb565_be`
followed by `rgb565_image_to_rgb` the quantization bound fails: the
decoder reads the big-endian bytes with `u16::from_le_bytes`, so pure
red `(255,0,0)` comes back as `(0,28,192)` — the red channel is off by
255, not less than 8. -/
theorem C8_be_pair_counterexample :
    rgb565_image_to_rgb (rgb888_to_rgb565_be [⟨255, 0, 0⟩]) = [⟨0, 28, 192⟩] ∧
    ¬ withinQuantStep ⟨255, 0, 0⟩ ⟨0, 28, 192⟩ := by
  constructor
  · decide
  · intro hcontra
    exact absurd hcontra.2.1 (by decide)

/-- C8 (amended): for every RGB888 image, the pixel-level
encode/decode pair reproduces each channel within one quantization
step (red/blue within 8, green within 4), and the byte-level pair
`rgb888_to_rgb565_le` followed by `rgb565_image_to_rgb` (the encoder
whose byte order the decoder actually reads) decodes to exactly those
pixel-level values. -/
theorem C8_rgb565_roundtrip_within_quantization_step (img : List Rgb888)
    (h : ∀ p ∈ img, p.r < 256 ∧ p.g < 256 ∧ p.b < 256) :
    (∀ p ∈ img, withinQuantStep p (decodeRgb565 (Rgb565Pixel.from_rgb p.r p.g p.b))) ∧
    rgb565_image_to_rgb (rgb888_to_rgb565_le img)
      = img.map fun p => decodeRgb565 (Rgb565Pixel.from_rgb p.r p.g p.b) := by
  refine ⟨fun p hp => ?_, image_to_rgb_of_le img h⟩
  obtain ⟨hr, hg, hb⟩ := h p hp
  rw [decode_from_rgb p.r p.g p.b hr hg hb]
  have h1 := and_f8_le_and_close p.r hr
  have h2 := and_fc_le_and_close p.g hg
  have h3 := and_f8_le_and_close p.b hb
  exact ⟨h1.1, h1.2, h2.1, h2.2, h3.1, h3.2⟩

/-- Witness for C8 at a concrete one-pixel image. -/
theorem C8_rgb565_roundtrip_within_quantization_step_witness :
    (∀ p ∈ [(⟨255, 129, 7⟩ : Rgb888)],
      withinQuantStep p (decodeRgb565 (Rgb565Pixel.from_rgb p.r p.g p.b))) ∧
    rgb565_image_to_rgb (rgb888_to_rgb565_le [⟨255, 129, 7⟩]) = [⟨248, 128, 0⟩] := by
  have h := C8_rgb565_roundtrip_within_quantization_step [⟨255, 129, 7⟩] (by decide)
  exact ⟨h.1, h.2.trans (by decide)⟩

/-- C9: a resolved telemetry value equal to the sentinel `"N/A"` never
replaces the cached text, an accessor returning no value leaves it
unchanged, a non-sentinel different value replaces it, and any change
at all comes from such a value. -/
theorem C9_sentinel_never_replaces_cached_text (current : String) :
    update_cached_text current (some EMPTY_STRING) = current ∧
    update_cached_text current none = current ∧
    (∀ t, t ≠ EMPTY_STRING → t ≠ current → update_cached_text current (some t) = t) ∧
    (∀ t, update_cached_text current (some t) ≠ current →
      t ≠ EMPTY_STRING ∧ update_cached_text current (some t) = t) := by
  refine ⟨by simp [update_cached_text], rfl, fun t h1 h2 => ?_, fun t h => ?_⟩
  · simp [update_cached_text, Ne.symm h2, h1]
  · by_cases h1 : t = EMPTY_STRING
    · subst h1
      simp [update_cached_text] at h
    · by_cases h2 : current = t
      · subst h2
        simp [update_cached_text] at h
      · exact ⟨h1, by simp [update_cached_text, h2, h1]⟩

/-- Witness for C9 at concrete strings. -/
theorem C9_sentinel_never_replaces_cached_text_witness :
    update_cached_text "10%" (some "42%") = "42%" :=
  (C9_sentinel_never_replaces_cached_text "10%").2.2.1 "42%" (by decide) (by decide)

/-- C4 is violated by the code: `render` sets `num_widget` to the
counter's final value, which is k-1 for k same-type widgets (its own
field comment documents it as the total k, and fresh widgets start at
1).  A single `cpu_usage` widget therefore renders with
`num_widget = 0`, so the `num_widget == 1` test in `TextWidget::draw`
fails and the widget resolves per-core entry 0 rather than global CPU
usage; with two `cpu_usage` widgets both get `num_widget = 1` and both
resolve the global value.  Ranks are assigned 0-based in list order,
as the claim states. -/
theorem C4_sibling_count_off_by_one :
    (render_update_indexes
        [Widget.text (TextWidget.new_with_text "w1" 0 0 "cpu_usage" "CPU" "")]).map
          (fun w => (w.index, w.num_widget, cpu_usage_query w.num_widget w.index))
      = [(0, 0, CpuUsageQuery.percpu 0)] ∧
    (render_update_indexes
        [Widget.text (TextWidget.new_with_text "w1" 0 0 "cpu_usage" "CPU" ""),
         Widget.text (TextWidget.new_with_text "w2" 0 0 "cpu_usage" "CPU" "")]).map
          (fun w => (w.index, w.num_widget, cpu_usage_query w.num_widget w.index))
      = [(0, 1, CpuUsageQuery.global), (1, 1, CpuUsageQuery.global)] ∧
    (0 : Nat) ≠ 1 ∧ (1 : Nat) ≠ 2 := by
  refine ⟨by decide, by decide, by decide, by decide⟩

/-- C6: a frame whose pixel rectangle exceeds the bound device's
declared resolution is dropped: `UsbScreen::draw_rgb_image` issues no
transport write and returns `Ok(())`. -/
theorem C6_oversized_frame_dropped (s : UsbScreen) (env : Nat → Option String)
    (compress : List Nat → List Nat) (x y : Nat) (img : RgbImageM)
    (h : s.info.width < img.width ∨ s.info.height < img.height) :
    s.draw_rgb_image env compress x y img = (.ok (), []) := by
  cases s with
  | usbRaw info =>
    simp only [UsbScreen.info] at h
    rw [UsbScreen.draw_rgb_image, if_neg (by omega)]
  | usbSerial info =>
    simp only [UsbScreen.info] at h
    rw [UsbScreen.draw_rgb_image, if_neg (by omega)]

/-- Witness for C6: a 200×100 frame against a 160×128 device. -/
theorem C6_oversized_frame_dropped_witness :
    UsbScreen.draw_rgb_image (.usbRaw ⟨"USB Screen(1)", "1", 160, 128⟩)
      (fun _ => none) id 0 0 ⟨200, 100, []⟩ = (.ok (), []) :=
  C6_oversized_frame_dropped (.usbRaw ⟨"USB Screen(1)", "1", 160, 128⟩)
    (fun _ => none) id 0 0 ⟨200, 100, []⟩ (Or.inl (by decide))

/-- C3 is violated by the code: `UsbScreen::draw_rgb_image` discards
the inner draw result (`let _ = draw_rgb_image(...)`) and uncondition-
ally returns `Ok(())`, so a failing bulk write (here: every write
times out, and the free function duly reports the error) still yields
`Ok` and the frame loop's `Err`-teardown branch (main.rs:109-116) can
never run. -/
theorem C3_write_failure_swallowed :
    (UsbScreen.draw_rgb_image (.usbRaw ⟨"USB Screen(1)", "1", 160, 128⟩)
        (fun _ => some "bulk_out timeout") id 0 0 ⟨1, 1, [⟨0, 0, 0⟩]⟩).1 = .ok () ∧
    (draw_rgb_image (fun _ => some "bulk_out timeout") id 0 0 ⟨1, 1, [⟨0, 0, 0⟩]⟩).1
      = .error "bulk_out timeout" ∧
    (UsbScreen.draw_rgb_image (.usbSerial ⟨"USB COM3", "COM3", 160, 128⟩)
        (fun _ => some "serial write timeout") id 0 0 ⟨1, 1, [⟨0, 0, 0⟩]⟩).1 = .ok () ∧
    (draw_rgb_image_serial (fun _ => some "serial write timeout") id 0 0
        ⟨1, 1, [⟨0, 0, 0⟩]⟩).1 = .error "serial write timeout" := by
  refine ⟨rfl, rfl, rfl, rfl⟩

/-- C1 is violated by the code: `draw_rgb565` and `draw_rgb565_serial`
contain no size guard at all — a compressed payload of 30 KiB (over
the claimed 28 KiB limit) is transmitted in full (all three writes)
and the functions return `Ok`, with no `TooLarge` error.  (The editor
even scans draw errors for the message `"图像太大了"` (editor.rs:323),
which no code produces.) -/
theorem C1_no_size_guard_payload_transmitted (payload : List Nat)
    (hbig : payload.length = 30 * 1024) (rgb565 : List Nat) (x y w h : Nat) :
    28 * 1024 < payload.length ∧
    draw_rgb565 (fun _ => none) (fun _ => payload) rgb565 x y w h
      = (.ok (), [img_begin x y w h, payload, u64_to_be_bytes IMAGE_BB]) ∧
    draw_rgb565_serial (fun _ => none) (fun _ => payload) rgb565 x y w h
      = (.ok (), [img_begin x y w h, payload, u64_to_be_bytes IMAGE_BB]) :=
  ⟨by omega, rfl, rfl⟩

/-- Witness for C1 at a concrete 30 KiB payload. -/
theorem C1_no_size_guard_payload_transmitted_witness :
    28 * 1024 < (List.replicate (30 * 1024) (0 : Nat)).length ∧
    draw_rgb565 (fun _ => none) (fun _ => List.replicate (30 * 1024) 0) [] 0 0 160 128
      = (.ok (), [img_begin 0 0 160 128, List.replicate (30 * 1024) 0,
          u64_to_be_bytes IMAGE_BB]) ∧
    draw_rgb565_serial (fun _ => none) (fun _ => List.replicate (30 * 1024) 0) [] 0 0 160 128
      = (.ok (), [img_begin 0 0 160 128, List.replicate (30 * 1024) 0,
          u64_to_be_bytes IMAGE_BB]) :=
  C1_no_size_guard_payload_transmitted (List.replicate (30 * 1024) 0)
    (List.length_replicate (30 * 1024) 0) [] 0 0 160 128

/-- C2 is violated by the code: `load_from_file` — despite its own
comment "尝试使用bindcode解析老版本screen文件" and the dead
`SaveableScreenV10`/`widgets::v10` declarations — decodes only the
current JSON schema, so every legacy bincode document fails to load
instead of succeeding with defaults.  The documented defaults
`fps = 10`, `rotate_degree = 0`, `device_address = device_ip = None`
exist only in the fresh `ScreenRender::new` state. -/
theorem C2_legacy_bincode_load_fails (s : SaveableScreenV10) (r : ScreenRender) :
    r.load_from_file (.bincodeLegacy s) = .error "serde_json: expected value at line 1" ∧
    (ScreenRender.new "ST7735" 160 128 none "").fps = 10 ∧
    (ScreenRender.new "ST7735" 160 128 none "").rotate_degree = 0 ∧
    (ScreenRender.new "ST7735" 160 128 none "").device_address = none ∧
    (ScreenRender.new "ST7735" 160 128 none "").device_ip = none :=
  ⟨rfl, rfl, rfl, rfl, rfl⟩

/-! Helper lemmas about `str::find`, slicing and `split` on the identity
strings of discovery. -/

theorem findChar_eq_none_iff (c : Char) (l : List Char) : findChar c l = none ↔ c ∉ l := by
  induction l with
  | nil => simp [findChar]
  | cons a l ih =>
    by_cases h : a = c
    · subst h
      simp [findChar]
    · simp only [findChar, if_neg h, Option.map_eq_none', ih, List.mem_cons]
      have hne : ¬(c = a) := fun hc => h hc.symm
      tauto

theorem findChar_some_lt (c : Char) (l : List Char) (i : Nat)
    (h : findChar c l = some i) : i < l.length := by
  induction l generalizing i with
  | nil => simp [findChar] at h
  | cons a l ih =>
    simp only [findChar] at h
    by_cases ha : a = c
    · rw [if_pos ha] at h
      cases h
      simp
    · rw [if_neg ha] at h
      cases hf : findChar c l with
      | none =>
        rw [hf] at h
        simp at h
      | some j =>
        rw [hf] at h
        simp only [Option.map_some', Option.some.injEq] at h
        have := ih j hf
        simp only [List.length_cons]
        omega

theorem findChar_append_not_mem (c : Char) (l₁ l₂ : List Char) (h : c ∉ l₁) :
    findChar c (l₁ ++ l₂) = (findChar c l₂).map (· + l₁.length) := by
  induction l₁ with
  | nil =>
    simp only [List.nil_append, List.length_nil]
    cases findChar c l₂ <;> simp
  | cons a l₁ ih =>
    have ha : a ≠ c := fun hc => h (hc ▸ List.mem_cons_self a l₁)
    have hmem : c ∉ l₁ := fun hc => h (List.mem_cons_of_mem a hc)
    have step : findChar c (a :: l₁ ++ l₂) = (findChar c (l₁ ++ l₂)).map (· + 1) := by
      simp only [List.cons_append, findChar, List.append_eq]
      rw [if_neg ha]
    rw [step, ih hmem]
    cases findChar c l₂ with
    | none => rfl
    | some j =>
      simp only [Option.map_some', Option.some.injEq, List.length_cons]
      omega

theorem takeWhile_all (p : Char → Bool) (l : List Char) (h : ∀ c ∈ l, p c = true) :
    l.takeWhile p = l := by
  induction l with
  | nil => rfl
  | cons a l ih =>
    simp only [List.takeWhile_cons, h a (List.mem_cons_self a l)]
    exact congrArg _ (ih fun c hc => h c (List.mem_cons_of_mem a hc))

theorem takeWhile_all_append (p : Char → Bool) (l₁ : List Char) (x : Char) (l₂ : List Char)
    (h : ∀ c ∈ l₁, p c = true) (hx : p x = false) :
    (l₁ ++ x :: l₂).takeWhile p = l₁ := by
  induction l₁ with
  | nil => simp [List.takeWhile_cons, hx]
  | cons a l₁ ih =>
    simp only [List.cons_append, List.takeWhile_cons, h a (List.mem_cons_self a l₁)]
    exact congrArg _ (ih fun c hc => h c (List.mem_cons_of_mem a hc))

theorem digit_map_x_self (l : List Char) (h : ∀ c ∈ l, c.isDigit) :
    (l.map fun ch => if ch = 'X' then 'x' else ch) = l := by
  induction l with
  | nil => rfl
  | cons a l ih =>
    have ha : a ≠ 'X' := fun hc => by
      have hd := h a (List.mem_cons_self a l)
      rw [hc] at hd
      exact absurd hd (by decide)
    simp only [List.map_cons, if_neg ha]
    exact congrArg _ (ih fun c hc => h c (List.mem_cons_of_mem a hc))

theorem digit_not_mem (c : Char) (l : List Char) (h : ∀ d ∈ l, d.isDigit)
    (hc : c.isDigit = false) : c ∉ l := fun hmem => by
  rw [h c hmem] at hc
  exact absurd hc (by decide)

theorem stripLeadingPlus_of_head_ne (c : Char) (cs : List Char) (hc : c ≠ '+') :
    stripLeadingPlus (c :: cs) = c :: cs := by
  unfold stripLeadingPlus
  split
  · rename_i heq
    injection heq with h1 _
    exact absurd h1 hc
  · rfl

theorem parse_u16_digits (l : List Char) (hne : l ≠ [])
    (hdig : ∀ c ∈ l, c.isDigit) (hle : digitsToNat l ≤ 65535) :
    parse_u16 l = some (digitsToNat l) := by
  cases l with
  | nil => exact absurd rfl hne
  | cons c cs =>
    have hc : c ≠ '+' := fun hc => by
      have hd := hdig c (List.mem_cons_self c cs)
      rw [hc] at hd
      exact absurd hd (by decide)
    have hall : (c :: cs).all Char.isDigit = true := List.all_eq_true.mpr hdig
    rw [parse_u16]
    simp only [stripLeadingPlus_of_head_ne c cs hc]
    rw [if_pos ⟨by simp, hall⟩, if_pos hle]

theorem digit_ne_of_not_digit (c d : Char) (h : c.isDigit) (hd : d.isDigit = false) :
    c ≠ d := fun hc => by
  rw [hc] at h
  rw [h] at hd
  exact absurd hd (by decide)

/-- Decoding a well-formed identity `USBSCR{width}{X|x}{height};...`
yields the embedded width and height. -/
theorem decode_screen_size_wellformed (wd hd rest : List Char) (sep : Char)
    (hsep : sep = 'X' ∨ sep = 'x')
    (hwdne : wd ≠ []) (hwdd : ∀ c ∈ wd, c.isDigit)
    (hhdne : hd ≠ []) (hhdd : ∀ c ∈ hd, c.isDigit)
    (hwv : digitsToNat wd ≤ 65535) (hhv : digitsToNat hd ≤ 65535) :
    decode_screen_size ("USBSCR".toList ++ (wd ++ sep :: (hd ++ ';' :: rest)))
      = some (digitsToNat wd, digitsToNat hd) := by
  have hsemi_wd : ';' ∉ wd := digit_not_mem ';' wd hwdd (by decide)
  have hsemi_hd : ';' ∉ hd := digit_not_mem ';' hd hhdd (by decide)
  have hsep_ne : sep ≠ ';' := by rcases hsep with h | h <;> simp [h]
  have hsemi_pre : ';' ∉ "USBSCR".toList := by decide
  have hfind : findChar ';' ("USBSCR".toList ++ (wd ++ sep :: (hd ++ ';' :: rest)))
      = some (hd.length + 1 + wd.length + 6) := by
    rw [findChar_append_not_mem _ _ _ hsemi_pre, findChar_append_not_mem _ _ _ hsemi_wd]
    have h1 : findChar ';' (sep :: (hd ++ ';' :: rest))
        = (findChar ';' (hd ++ ';' :: rest)).map (· + 1) := by
      simp only [findChar]
      rw [if_neg hsep_ne]
    rw [h1, findChar_append_not_mem _ _ _ hsemi_hd]
    have h2 : findChar ';' (';' :: rest) = some 0 := by simp [findChar]
    rw [h2]
    simp only [Option.map_some']
    have h3 : ("USBSCR".toList).length = 6 := by decide
    rw [h3]
    congr 1
    omega
  have hslice : rust_slice ("USBSCR".toList ++ (wd ++ sep :: (hd ++ ';' :: rest))) 6
      (hd.length + 1 + wd.length + 6) = some (wd ++ sep :: hd) := by
    have hcond : 6 ≤ hd.length + 1 + wd.length + 6 ∧
        hd.length + 1 + wd.length + 6
          ≤ ("USBSCR".toList ++ (wd ++ sep :: (hd ++ ';' :: rest))).length := by
      constructor
      · omega
      · simp only [List.length_append, List.length_cons]
        have h3 : ("USBSCR".toList).length = 6 := by decide
        omega
    rw [rust_slice, if_pos hcond]
    congr 1
    have he : hd.length + 1 + wd.length + 6
        = ("USBSCR".toList).length + (wd.length + (1 + hd.length)) := by
      have h3 : ("USBSCR".toList).length = 6 := by decide
      omega
    rw [he, List.take_append, List.drop_left' (by decide : ("USBSCR".toList).length = 6),
        List.take_append]
    have h4 : 1 + hd.length = hd.length + 1 := by omega
    rw [h4, List.take_succ_cons, List.take_left]
  rw [decode_screen_size, hfind]
  simp only [Option.getD_some, hslice]
  have hsepx : (if sep = 'X' then 'x' else sep) = 'x' := by
    rcases hsep with h | h <;> simp [h]
  rw [List.map_append, List.map_cons, digit_map_x_self wd hwdd, digit_map_x_self hd hhdd,
    hsepx]
  have hwd_ne_x : ∀ c ∈ wd, (fun ch => decide (ch ≠ 'x')) c = true := fun c hc =>
    decide_eq_true (digit_ne_of_not_digit c 'x' (hwdd c hc) (by decide))
  have hhd_ne_x : ∀ c ∈ hd, (fun ch => decide (ch ≠ 'x')) c = true := fun c hc =>
    decide_eq_true (digit_ne_of_not_digit c 'x' (hhdd c hc) (by decide))
  have htw : List.takeWhile (fun ch => decide (ch ≠ 'x')) (wd ++ 'x' :: hd) = wd :=
    takeWhile_all_append _ wd 'x' hd hwd_ne_x (by decide)
  have hx_wd : 'x' ∉ wd := digit_not_mem 'x' wd hwdd (by decide)
  have hafter : afterFirstChar 'x' (wd ++ 'x' :: hd) = some hd := by
    rw [afterFirstChar, findChar_append_not_mem _ _ _ hx_wd]
    have h5 : findChar 'x' ('x' :: hd) = some 0 := by simp [findChar]
    rw [h5]
    simp only [Option.map_some']
    rw [Nat.zero_add]
    congr 1
    have h7 : (wd ++ 'x' :: hd).drop (wd.length + 1) = ('x' :: hd).drop 1 :=
      List.drop_append 1
    rw [h7]
    rfl
  rw [htw, hafter]
  simp only [Option.map_some', takeWhile_all _ hd hhd_ne_x]
  rw [parse_u16_digits wd hwdne hwdd hwv, parse_u16_digits hd hhdne hhdd hhv]
  rfl

/-- C7: for an identity of the form `USBSCR{width}X{height};...` (the
separator `X` or `x`, width and height decimal digit strings in u16
range) the shared decoding block of `find_all_device` and
`find_usb_serial_device` returns exactly the embedded resolution; the
two scenario identities decode to (160,128) and (320,240); and when
the width/height digits fail to parse the defaults 160 and 128 are
used. -/
theorem C7_declared_resolution_decoding (wd hd rest : List Char) (sep : Char)
    (hsep : sep = 'X' ∨ sep = 'x')
    (hwdne : wd ≠ []) (hwdd : ∀ c ∈ wd, c.isDigit)
    (hhdne : hd ≠ []) (hhdd : ∀ c ∈ hd, c.isDigit)
    (hwv : digitsToNat wd ≤ 65535) (hhv : digitsToNat hd ≤ 65535) :
    decode_screen_size ("USBSCR".toList ++ (wd ++ sep :: (hd ++ ';' :: rest)))
      = some (digitsToNat wd, digitsToNat hd) ∧
    decode_screen_size "USBSCR160X128;0123".toList = some (160, 128) ∧
    decode_screen_size "USBSCR320X240;0123".toList = some (320, 240) ∧
    decode_screen_size "USBSCRABCXDEF;0123".toList = some (160, 128) :=
  ⟨decode_screen_size_wellformed wd hd rest sep hsep hwdne hwdd hhdne hhdd hwv hhv,
   by decide, by decide, by decide⟩

/-- Witness for C7 at the serial-device scenario identity
`USBSCR320x240;ST7789`. -/
theorem C7_declared_resolution_decoding_witness :
    decode_screen_size
        ("USBSCR".toList ++ (['3', '2', '0'] ++ 'x' :: (['2', '4', '0'] ++ ';' :: "ST7789".toList)))
      = some (digitsToNat ['3', '2', '0'], digitsToNat ['2', '4', '0']) ∧
    decode_screen_size "USBSCR160X128;0123".toList = some (160, 128) ∧
    decode_screen_size "USBSCR320X240;0123".toList = some (320, 240) ∧
    decode_screen_size "USBSCRABCXDEF;0123".toList = some (160, 128) :=
  C7_declared_resolution_decoding ['3', '2', '0'] ['2', '4', '0'] "ST7789".toList 'x'
    (Or.inr rfl) (by decide) (by decide) (by decide) (by decide) (by decide) (by decide)

/-- C10: discovery's size decoding panics on a matching device whose
serial number is shorter than 13 bytes with no `;` (the fixed-offset
slice `serial_number[6..13]` is out of range, modelled as `none`);
and it is total whenever the serial number contains `;` or has length
at least 13. -/
theorem C10_fixed_offset_slice_panics :
    decode_screen_size "USBSCRAB".toList = none ∧
    (∀ serial : List Char, "USBSCR".toList.isPrefixOf serial →
      (';' ∈ serial ∨ 13 ≤ serial.length) → (decode_screen_size serial).isSome = true) := by
  refine ⟨by decide, fun serial hpre hcond => ?_⟩
  obtain ⟨t, ht⟩ := List.isPrefixOf_iff_prefix.mp hpre
  obtain ⟨t, rfl⟩ : ∃ u, serial = "USBSCR".toList ++ u := ⟨t, ht.symm⟩
  rw [decode_screen_size]
  have hok : 6 ≤ (findChar ';' ("USBSCR".toList ++ t)).getD 13 ∧
      (findChar ';' ("USBSCR".toList ++ t)).getD 13 ≤ ("USBSCR".toList ++ t).length := by
    rcases hcase : findChar ';' ("USBSCR".toList ++ t) with _ | i
    · have hnot : ';' ∉ ("USBSCR".toList ++ t) := (findChar_eq_none_iff _ _).mp hcase
      rcases hcond with hmem | hlen
      · exact absurd hmem hnot
      · exact ⟨by simp [Option.getD], by simpa [Option.getD] using hlen⟩
    · have hlt := findChar_some_lt _ _ _ hcase
      have hmap : findChar ';' ("USBSCR".toList ++ t) = (findChar ';' t).map (· + 6) := by
        rw [findChar_append_not_mem _ _ _ (by decide),
          (by decide : ("USBSCR".toList).length = 6)]
      rw [hcase] at hmap
      have h6 : 6 ≤ i := by
        cases hft : findChar ';' t with
        | none => rw [hft] at hmap; simp at hmap
        | some j =>
          rw [hft] at hmap
          simp only [Option.map_some', Option.some.injEq] at hmap
          have hlen6 : ("USBSCR".toList).length = 6 := by decide
          omega
      exact ⟨by simpa [Option.getD] using h6, by simpa [Option.getD] using Nat.le_of_lt hlt⟩
  rw [rust_slice, if_pos hok]
  simp

/-- Witness for C10's totality clause at a well-formed identity. -/
theorem C10_fixed_offset_slice_panics_witness :
    (decode_screen_size "USBSCR160X128;".toList).isSome = true :=
  C10_fixed_offset_slice_panics.2 "USBSCR160X128;".toList (by decide)
    (Or.inl (by decide))

/-- The Rust clamp `if rect_extent <= 0 { 1 }` on the truncated product
equals the spec's `max(1, floor q)` for every rational `q`: truncation
and floor agree on nonnegative values, and for negative values both
sides clamp to 1. -/
theorem clamp_trunc_eq_max_floor (q : ℚ) :
    (if ratTruncToInt q ≤ 0 then 1 else ratTruncToInt q) = max 1 ⌊q⌋ := by
  rcases le_or_lt 0 q with h | h
  · have hnum : 0 ≤ q.num := Rat.num_nonneg.mpr h
    have htf : ratTruncToInt q = ⌊q⌋ := by
      rw [ratTruncToInt, Rat.floor_def, Int.tdiv_eq_ediv hnum (by positivity)]
    rw [htf]
    split <;> omega
  · have hnum : q.num < 0 := by
      by_contra hc
      push_neg at hc
      exact absurd (Rat.num_nonneg.mp hc) (not_le.mpr h)
    have htr : ratTruncToInt q ≤ 0 := by
      rw [ratTruncToInt, show q.num = -(-q.num) by omega, Int.neg_tdiv]
      have := Int.tdiv_nonneg (a := -q.num) (b := (q.den : Int)) (by omega) (by positivity)
      omega
    have hfl : ⌊q⌋ ≤ 0 := Int.floor_nonpos h.le
    rw [if_pos htr]
    omega

/-- The filled rectangle of a progress-bar widget, in closed form:
horizontal bars fill `max 1 ⌊extent·pct/100⌋` from the box's left
edge, vertical bars the same extent from the bottom edge upward. -/
theorem progress_bar_rect_spec (w : TextWidget)
    (h1 : w.type_name ≠ "weather") (h2 : w.type_name ≠ "uptime") :
    (w.tag1 = "1" →
      progress_bar_rect w = some ⟨w.position.left, w.position.top,
        max 1 ⌊(w.bar_width : ℚ) * (progress_percent w.text / 100)⌋, w.bar_height⟩) ∧
    (w.tag1 = "2" →
      progress_bar_rect w = some ⟨w.position.left,
        w.position.top + (w.bar_height
          - max 1 ⌊(w.bar_height : ℚ) * (progress_percent w.text / 100)⌋),
        w.bar_width,
        max 1 ⌊(w.bar_height : ℚ) * (progress_percent w.text / 100)⌋⟩) := by
  constructor
  · intro htag
    simp only [progress_bar_rect]
    rw [if_neg (fun hc => h1 hc.1), if_pos ⟨h1, h2, Or.inl htag⟩, if_pos htag,
      clamp_trunc_eq_max_floor]
  · intro htag
    have hne1 : w.tag1 ≠ "1" := by
      rw [htag]
      decide
    simp only [progress_bar_rect]
    rw [if_neg (fun hc => h1 hc.1), if_pos ⟨h1, h2, Or.inr htag⟩, if_neg hne1,
      clamp_trunc_eq_max_floor]

/-- C5 counterexample: the claim's "parsed from the numeric prefix"
fails on the code.  For resolved text `"50x"` the numeric prefix is 50,
so the claimed fill of a 100-wide horizontal bar would be
`max(1, ⌊100·50/100⌋) = 50` px — but Rust's whole-string
`parse::<f32>` fails on `"50x"`, defaults the percent to 0, and the
widget fills 1 px. -/
theorem C5_numeric_prefix_counterexample :
    numeric_prefix_percent "50x" = 50 ∧
    max 1 ⌊(100 : ℚ) * (numeric_prefix_percent "50x" / 100)⌋ = 50 ∧
    (progress_bar_rect ⟨"cx", "50x", "", [255, 255, 255, 255], 14, ⟨0, 0, 1, 1⟩,
        "cpu_usage", 0, 1, "1", "", some 100, some 20, none, none⟩).map FillRect.width
      = some 1 := by
  have hn : numeric_prefix_percent "50x" = 50 := by
    have h : numeric_prefix_percent "50x" = 1 * ((50 : Nat) : ℚ) := rfl
    rw [h]
    norm_num
  refine ⟨hn, ?_, ?_⟩
  · rw [hn, show (100 : ℚ) * (50 / 100) = ((50 : Int) : ℚ) by norm_num, Int.floor_intCast]
    decide
  · have h := (progress_bar_rect_spec ⟨"cx", "50x", "", [255, 255, 255, 255], 14,
      ⟨0, 0, 1, 1⟩, "cpu_usage", 0, 1, "1", "", some 100, some 20, none, none⟩
      (by decide) (by decide)).1 rfl
    rw [h]
    simp only [Option.map_some']
    dsimp only [TextWidget.bar_width, TextWidget.bar_height, Option.getD]
    rw [show progress_percent "50x" = 0 from rfl,
      show ((0 : ℚ) / 100) = 0 by norm_num, mul_zero, Int.floor_zero]
    decide

/-- C5 (amended): for a `TextWidget` whose type is neither `weather`
nor `uptime`, with pct the value parsed from the **entire** resolved
text after stripping `%` and `°C` (0 when the parse fails), `tag1="1"`
fills a horizontal rectangle of width `max 1 ⌊boxWidth·pct/100⌋`
starting at the box's left edge, and `tag1="2"` fills a vertical
rectangle of height `max 1 ⌊boxHeight·pct/100⌋` from the bottom edge
upward; in particular pct = 0 fills exactly 1 px and pct = 100 fills
the full configured extent. -/
theorem C5_progress_bar_fill (w : TextWidget)
    (h1 : w.type_name ≠ "weather") (h2 : w.type_name ≠ "uptime") :
    (w.tag1 = "1" →
      progress_bar_rect w = some ⟨w.position.left, w.position.top,
        max 1 ⌊(w.bar_width : ℚ) * (progress_percent w.text / 100)⌋, w.bar_height⟩) ∧
    (w.tag1 = "2" →
      progress_bar_rect w = some ⟨w.position.left,
        w.position.top + (w.bar_height
          - max 1 ⌊(w.bar_height : ℚ) * (progress_percent w.text / 100)⌋),
        w.bar_width,
        max 1 ⌊(w.bar_height : ℚ) * (progress_percent w.text / 100)⌋⟩) ∧
    (w.tag1 = "1" → progress_percent w.text = 0 →
      (progress_bar_rect w).map FillRect.width = some 1) ∧
    (w.tag1 = "1" → progress_percent w.text = 100 → 1 ≤ w.bar_width →
      (progress_bar_rect w).map FillRect.width = some w.bar_width) := by
  obtain ⟨hs1, hs2⟩ := progress_bar_rect_spec w h1 h2
  refine ⟨hs1, hs2, fun htag hpct => ?_, fun htag hpct hbw => ?_⟩
  · rw [hs1 htag, hpct]
    simp only [Option.map_some']
    rw [show ((0 : ℚ) / 100) = 0 by norm_num, mul_zero, Int.floor_zero]
    rfl
  · rw [hs1 htag, hpct]
    simp only [Option.map_some']
    rw [show ((100 : ℚ) / 100) = 1 by norm_num, mul_one, Int.floor_intCast,
      max_eq_right hbw]

/-- Witness for C5: a `cpu_usage` bar with text "42%", explicit
100×20 box at (5,6), `tag1="1"`, fills 42×20 px at (5,6). -/
theorem C5_progress_bar_fill_witness :
    progress_bar_rect ⟨"w1", "42%", "", [255, 255, 255, 255], 14, ⟨5, 6, 6, 7⟩,
        "cpu_usage", 0, 1, "1", "", some 100, some 20, none, none⟩
      = some ⟨5, 6, 42, 20⟩ := by
  have h := (C5_progress_bar_fill ⟨"w1", "42%", "", [255, 255, 255, 255], 14, ⟨5, 6, 6, 7⟩,
      "cpu_usage", 0, 1, "1", "", some 100, some 20, none, none⟩
      (by decide) (by decide)).1 rfl
  rw [h]
  dsimp only [TextWidget.bar_width, TextWidget.bar_height, Option.getD]
  rw [show progress_percent "42%" = 1 * ((42 : Nat) : ℚ) from rfl,
    show ((100 : Int) : ℚ) * (1 * ((42 : Nat) : ℚ) / 100) = ((42 : Int) : ℚ) by push_cast; ring,
    Int.floor_intCast, max_eq_right (by norm_num : (1 : Int) ≤ 42)]
